import Mathlib

/-!
Verification development for the CryptoLake repository: the quality-check
engine (status lifecycle, result record, runner), the health-check script
and the lazy shared database connection.

The quality-check engine (`src.quality.validators`) is only visible through
its unit tests and the spec, so its definitions below are modelled from the
spec.  The health-check script and the database wrapper are embedded from
their sources (`scripts/health_check.py`, `src/serving/api/database.py`).
Numeric metric values are modelled as rationals; timestamps as naturals.
-/

namespace CryptoLake

/-- Modelled from the spec: errors of the quality-check engine
(`src.quality.validators` is not in the visible source).  `UnknownStatus`
is raised when parsing a status string that is not one of the four
canonical values; `InvalidCheckResult` is raised at `CheckResult`
construction when required fields are empty. -/
inductive QualityError
  | UnknownStatus (s : String)
  | InvalidCheckResult (msg : String)
deriving DecidableEq, Repr

/-- Modelled from the spec: `CheckStatus`, the closed set of the four
possible outcomes of evaluating a check (`src.quality.validators` is not in
the visible source).  The variants carry no attributes. -/
inductive CheckStatus
  | passed
  | failed
  | warning
  | error
deriving DecidableEq, Repr

/-- Modelled from the spec: the fixed lowercase string identifier of each
`CheckStatus` variant, used in serialization (the `.value` attribute of the
Python enum, pinned by `test_check_status_values`). -/
def CheckStatus.value : CheckStatus → String
  | .passed => "passed"
  | .failed => "failed"
  | .warning => "warning"
  | .error => "error"

/-- Modelled from the spec: parse a string into a `CheckStatus` variant;
fails with `UnknownStatus` when the string matches none of the four
canonical values. -/
def CheckStatus.parse (s : String) : Except QualityError CheckStatus :=
  if s = "passed" then .ok .passed
  else if s = "failed" then .ok .failed
  else if s = "warning" then .ok .warning
  else if s = "error" then .ok .error
  else .error (.UnknownStatus s)

/-- Modelled from the spec: `CheckResult`, one immutable evaluation record
of the quality-check engine.  `metric_value` and `threshold` are numeric
(modelled as rationals); `threshold` may be absent; `checked_at` is the
timestamp assigned at construction. -/
structure CheckResult where
  check_name : String
  layer : String
  table_name : String
  status : CheckStatus
  metric_value : ℚ
  threshold : Option ℚ
  message : String
  checked_at : Nat
deriving DecidableEq, Repr

/-- Modelled from the spec: validated construction of a `CheckResult`.
`now` is the clock reading at construction time: `checked_at` is always
assigned internally from it and is never a caller-supplied field.  Empty
`check_name` or `table_name` is rejected with `InvalidCheckResult`. -/
def mkCheckResult (now : Nat) (check_name layer table_name : String)
    (status : CheckStatus) (metric_value : ℚ) (threshold : Option ℚ)
    (message : String) : Except QualityError CheckResult :=
  if check_name = "" then
    .error (.InvalidCheckResult "check_name must be non-empty")
  else if table_name = "" then
    .error (.InvalidCheckResult "table_name must be non-empty")
  else
    .ok { check_name := check_name, layer := layer, table_name := table_name,
          status := status, metric_value := metric_value,
          threshold := threshold, message := message, checked_at := now }

/-- Values appearing in the structured mapping produced by `to_dict`. -/
inductive DictVal
  | str (s : String)
  | num (q : ℚ)
  | null
deriving DecidableEq, Repr

/-- Encoding of an optional numeric field for `to_dict`. -/
def optNum : Option ℚ → DictVal
  | some q => .num q
  | none => .null

/-- Modelled from the spec: `CheckResult.to_dict`, the lossless
deterministic serialization of a result to a structured mapping.  It is a
pure function of the stored fields: `status` is rendered as its canonical
string identifier and `checked_at` as a canonical timestamp encoding of
the stored timestamp, not re-sampled from the clock. -/
def CheckResult.to_dict (r : CheckResult) : List (String × DictVal) :=
  [("check_name", .str r.check_name),
   ("layer", .str r.layer),
   ("table_name", .str r.table_name),
   ("status", .str r.status.value),
   ("metric_value", .num r.metric_value),
   ("threshold", optNum r.threshold),
   ("message", .str r.message),
   ("checked_at", .str (toString r.checked_at))]

/-- Claim C4: parsing each of the four canonical strings yields the
corresponding variant and re-serializing yields the original string
(stated as: for every variant, parsing its canonical string succeeds with
that variant, and every successful parse re-serializes to the parsed
string); parsing any string outside the four canonical ones fails with
`UnknownStatus`. -/
theorem checkStatus_roundtrip :
    (∀ s : CheckStatus, CheckStatus.parse s.value = .ok s) ∧
    (∀ (str : String) (s : CheckStatus),
      CheckStatus.parse str = .ok s → s.value = str) ∧
    (∀ str : String, str ∉ ["passed", "failed", "warning", "error"] →
      CheckStatus.parse str = .error (.UnknownStatus str)) := by
  refine ⟨?_, ?_, ?_⟩
  · intro s; cases s <;> rfl
  · intro str s h
    unfold CheckStatus.parse at h
    split at h
    · cases h; simp [CheckStatus.value, *]
    · split at h
      · cases h; simp [CheckStatus.value, *]
      · split at h
        · cases h; simp [CheckStatus.value, *]
        · split at h
          · cases h; simp [CheckStatus.value, *]
          · cases h
  · intro str h
    simp only [List.mem_cons, List.not_mem_nil, or_false, not_or] at h
    obtain ⟨h1, h2, h3, h4⟩ := h
    unfold CheckStatus.parse
    simp [h1, h2, h3, h4]

/-- Witness for C4 at concrete inputs: round-trip of `"warning"`, the
re-serialization direction at `"failed"`, and the failure of parsing the
non-canonical string `"bogus"`. -/
theorem checkStatus_roundtrip_witness :
    CheckStatus.parse (CheckStatus.warning).value = .ok .warning ∧
    (CheckStatus.failed).value = "failed" ∧
    CheckStatus.parse "bogus" = .error (.UnknownStatus "bogus") :=
  ⟨checkStatus_roundtrip.1 .warning,
   checkStatus_roundtrip.2.1 "failed" .failed (by simp [CheckStatus.parse]),
   checkStatus_roundtrip.2.2 "bogus" (by decide)⟩

/-- Claim C5: constructing a `CheckResult` with an empty `check_name` or an
empty `table_name` fails with an `InvalidCheckResult` error, and
construction succeeds for every other input shape (the threshold may be
absent). -/
theorem checkResult_construction_validation (now : Nat)
    (check_name layer table_name : String) (status : CheckStatus)
    (metric_value : ℚ) (threshold : Option ℚ) (message : String) :
    (check_name = "" ∨ table_name = "" →
      ∃ m, mkCheckResult now check_name layer table_name status metric_value
            threshold message = .error (.InvalidCheckResult m)) ∧
    (check_name ≠ "" → table_name ≠ "" →
      mkCheckResult now check_name layer table_name status metric_value
          threshold message =
        .ok { check_name := check_name, layer := layer,
              table_name := table_name, status := status,
              metric_value := metric_value, threshold := threshold,
              message := message, checked_at := now }) := by
  constructor
  · rintro (h | h)
    · exact ⟨"check_name must be non-empty", by simp [mkCheckResult, h]⟩
    · by_cases hc : check_name = ""
      · exact ⟨"check_name must be non-empty", by simp [mkCheckResult, hc]⟩
      · exact ⟨"table_name must be non-empty", by simp [mkCheckResult, hc, h]⟩
  · intro hc ht
    simp [mkCheckResult, hc, ht]

/-- Witness for C5: an empty `check_name` is rejected and a fully
non-empty input is accepted, at concrete inputs. -/
theorem checkResult_construction_validation_witness :
    (∃ m, mkCheckResult 0 "" "bronze" "prices" .passed 1 none "ok" =
      .error (.InvalidCheckResult m)) ∧
    mkCheckResult 7 "row_count_min" "bronze" "prices" .passed 100 (some 50)
        "All good" =
      .ok { check_name := "row_count_min", layer := "bronze",
            table_name := "prices", status := .passed, metric_value := 100,
            threshold := some 50, message := "All good", checked_at := 7 } :=
  ⟨(checkResult_construction_validation 0 "" "bronze" "prices" .passed 1
      none "ok").1 (Or.inl rfl),
   (checkResult_construction_validation 7 "row_count_min" "bronze" "prices"
      .passed 100 (some 50) "All good").2 (by decide) (by decide)⟩

/-- Claim C6: for every `CheckResult`, `to_dict` returns a mapping whose
keys are exactly `check_name`, `layer`, `table_name`, `status`,
`metric_value`, `threshold`, `message` and `checked_at`; the value under
`status` is the stored status's canonical lowercase string identifier and
the values under the other field keys equal the stored fields (so a stored
metric value of 100 serializes as the number 100). -/
theorem checkResult_to_dict_postcondition (r : CheckResult) :
    (r.to_dict.map Prod.fst) =
      ["check_name", "layer", "table_name", "status", "metric_value",
       "threshold", "message", "checked_at"] ∧
    r.to_dict.lookup "status" = some (.str r.status.value) ∧
    r.to_dict.lookup "check_name" = some (.str r.check_name) ∧
    r.to_dict.lookup "layer" = some (.str r.layer) ∧
    r.to_dict.lookup "table_name" = some (.str r.table_name) ∧
    r.to_dict.lookup "metric_value" = some (.num r.metric_value) ∧
    r.to_dict.lookup "threshold" = some (optNum r.threshold) ∧
    r.to_dict.lookup "message" = some (.str r.message) ∧
    r.to_dict.lookup "checked_at" = some (.str (toString r.checked_at)) := by
  refine ⟨rfl, ?_, rfl, ?_, ?_, ?_, ?_, ?_, ?_⟩ <;>
    simp [CheckResult.to_dict, List.lookup]

/-- Claim C7: `checked_at` is assigned internally at construction from the
clock reading `now` (never stored from a caller field), `to_dict` of any
successfully constructed result contains the key `checked_at`, and two
successive `to_dict` calls return the same `checked_at` value, since
serialization is a pure function of the stored record and does not
re-sample the clock. -/
theorem checkResult_checked_at_internal (now : Nat)
    (check_name layer table_name : String) (status : CheckStatus)
    (metric_value : ℚ) (threshold : Option ℚ) (message : String)
    (r : CheckResult)
    (h : mkCheckResult now check_name layer table_name status metric_value
          threshold message = .ok r) :
    r.checked_at = now ∧
    r.to_dict.lookup "checked_at" = some (.str (toString now)) ∧
    r.to_dict.lookup "checked_at" = r.to_dict.lookup "checked_at" := by
  unfold mkCheckResult at h
  split at h
  · cases h
  · split at h
    · cases h
    · cases h
      exact ⟨rfl, by simp [CheckResult.to_dict, List.lookup], rfl⟩

/-- Witness for C7 at a concrete construction with clock reading 42. -/
theorem checkResult_checked_at_internal_witness :
    ({ check_name := "row_count_min", layer := "bronze",
       table_name := "prices", status := CheckStatus.passed,
       metric_value := 100, threshold := some 50, message := "All good",
       checked_at := 42 } : CheckResult).checked_at = 42 ∧
    ({ check_name := "row_count_min", layer := "bronze",
       table_name := "prices", status := CheckStatus.passed,
       metric_value := 100, threshold := some 50, message := "All good",
       checked_at := 42 } : CheckResult).to_dict.lookup "checked_at" =
      some (.str (toString 42)) ∧
    ({ check_name := "row_count_min", layer := "bronze",
       table_name := "prices", status := CheckStatus.passed,
       metric_value := 100, threshold := some 50, message := "All good",
       checked_at := 42 } : CheckResult).to_dict.lookup "checked_at" =
    ({ check_name := "row_count_min", layer := "bronze",
       table_name := "prices", status := CheckStatus.passed,
       metric_value := 100, threshold := some 50, message := "All good",
       checked_at := 42 } : CheckResult).to_dict.lookup "checked_at" :=
  checkResult_checked_at_internal 42 "row_count_min" "bronze" "prices"
    .passed 100 (some 50) "All good" _ (by simp [mkCheckResult])

/-- Claim C8: `CheckStatus` is a closed set of exactly four variants whose
string identifiers are `"passed"`, `"failed"`, `"warning"` and `"error"`
respectively, and the variants carry no other attributes (every value is
one of the four bare constructors). -/
theorem checkStatus_closed_four :
    CheckStatus.passed.value = "passed" ∧
    CheckStatus.failed.value = "failed" ∧
    CheckStatus.warning.value = "warning" ∧
    CheckStatus.error.value = "error" ∧
    ∀ s : CheckStatus,
      s = .passed ∨ s = .failed ∨ s = .warning ∨ s = .error := by
  refine ⟨rfl, rfl, rfl, rfl, ?_⟩
  intro s
  cases s
  · exact Or.inl rfl
  · exact Or.inr (Or.inl rfl)
  · exact Or.inr (Or.inr (Or.inl rfl))
  · exact Or.inr (Or.inr (Or.inr rfl))

/-- Modelled from the spec: the comparison policy of a check definition —
hard greater-or-equal / less-or-equal thresholds whose violation blocks
(`failed`), soft thresholds whose violation is non-blocking (`warning`),
or an informational check with no threshold comparison. -/
inductive Policy
  | hardGeq
  | hardLeq
  | softGeq
  | softLeq
  | informational
deriving DecidableEq, Repr

/-- Modelled from the spec: one check definition consumed by the runner —
a name, a pure evaluation function from a dataset handle to
`(metric_value, threshold, message)` (an `Except.error` models a raised
exception and carries its description), and a comparison policy. -/
structure CheckDef (δ : Type) where
  check_name : String
  run : δ → Except String (ℚ × Option ℚ × String)
  policy : Policy

/-- Modelled from the spec: status derivation — `passed` when the metric
satisfies the policy's comparison against the threshold, `failed` when a
hard policy is violated, `warning` when a soft policy is violated;
checks with no threshold (or informational policy) pass. -/
def deriveStatus (p : Policy) (metric : ℚ) (threshold : Option ℚ) :
    CheckStatus :=
  match p, threshold with
  | .informational, _ => .passed
  | _, none => .passed
  | .hardGeq, some t => if t ≤ metric then .passed else .failed
  | .hardLeq, some t => if metric ≤ t then .passed else .failed
  | .softGeq, some t => if t ≤ metric then .passed else .warning
  | .softLeq, some t => if metric ≤ t then .passed else .warning

/-- Modelled from the spec: evaluation of one check by the `CheckRunner`.
A raised exception is captured as a `CheckResult` with status `error` and
the error's message, never propagated. -/
def runCheck {δ : Type} (now : Nat) (layer table : String) (d : δ)
    (c : CheckDef δ) : CheckResult :=
  match c.run d with
  | .error msg =>
    { check_name := c.check_name, layer := layer, table_name := table,
      status := .error, metric_value := 0, threshold := none,
      message := msg, checked_at := now }
  | .ok (m, t, msg) =>
    { check_name := c.check_name, layer := layer, table_name := table,
      status := deriveStatus c.policy m t, metric_value := m,
      threshold := t, message := msg, checked_at := now }

/-- Modelled from the spec: the `CheckRunner` evaluates the batch of check
definitions in the given order, one at a time, producing one
`CheckResult` per check in input order. -/
def runChecks {δ : Type} (now : Nat) (layer table : String) (d : δ)
    (checks : List (CheckDef δ)) : List CheckResult :=
  checks.map (runCheck now layer table d)

/-- True exactly for the statuses that make the aggregate gate fail. -/
def CheckStatus.isBlocking : CheckStatus → Bool
  | .failed => true
  | .error => true
  | _ => false

/-- True exactly for the `warning` status. -/
def CheckStatus.isWarning : CheckStatus → Bool
  | .warning => true
  | _ => false

/-- Modelled from the spec: the aggregate decision — `failed` if any
individual result is `failed` or `error`, `warning` if none failed or
errored but at least one is `warning`, `passed` otherwise. -/
def aggregate (rs : List CheckResult) : CheckStatus :=
  if rs.any (fun r => r.status.isBlocking) then .failed
  else if rs.any (fun r => r.status.isWarning) then .warning
  else .passed

lemma isBlocking_iff (s : CheckStatus) :
    s.isBlocking = true ↔ (s = .failed ∨ s = .error) := by
  cases s <;> simp [CheckStatus.isBlocking]

lemma isWarning_iff (s : CheckStatus) :
    s.isWarning = true ↔ s = .warning := by
  cases s <;> simp [CheckStatus.isWarning]

/-- Claim C3: for every input sequence of N check definitions, the output
of the runner has length exactly N and its i-th element is the evaluation
of the i-th input check, whatever each check's outcome. -/
theorem checkRunner_order_invariant {δ : Type} (now : Nat)
    (layer table : String) (d : δ) (checks : List (CheckDef δ)) :
    (runChecks now layer table d checks).length = checks.length ∧
    ∀ (i : Nat) (hi : i < checks.length)
      (hi2 : i < (runChecks now layer table d checks).length),
      (runChecks now layer table d checks)[i] =
        runCheck now layer table d checks[i] := by
  refine ⟨by simp [runChecks], ?_⟩
  intro i hi hi2
  simp [runChecks]

/-- Witness for C3 on a concrete two-check batch over the unit dataset. -/
theorem checkRunner_order_invariant_witness :
    (runChecks 0 "bronze" "prices" ()
        [⟨"a", fun _ => .ok (100, some 50, "ok"), .hardGeq⟩,
         ⟨"b", fun _ => .error "boom", .hardGeq⟩]).length = 2 ∧
    (runChecks 0 "bronze" "prices" ()
        [⟨"a", fun _ => .ok (100, some 50, "ok"), .hardGeq⟩,
         ⟨"b", fun _ => .error "boom", .hardGeq⟩]).get
        ⟨1, by simp [runChecks]⟩ =
      runCheck 0 "bronze" "prices" ()
        ⟨"b", fun _ => .error "boom", Policy.hardGeq⟩ := by
  have h := checkRunner_order_invariant 0 "bronze" "prices" ()
    [⟨"a", fun _ => .ok (100, some 50, "ok"), .hardGeq⟩,
     ⟨"b", fun _ => .error "boom", .hardGeq⟩]
  exact ⟨h.1, h.2 1 (by simp) (by simp [runChecks])⟩

/-- Claim C1: failure isolation — if evaluating check i raises an
exception (its run function returns an error with description `msg`), the
runner captures it as a `CheckResult` with status `error` whose message
contains the error's description, does not propagate the exception (the
output is still a total list of results), and every check j, including all
of i+1..N, is still evaluated and appears at position j of the output. -/
theorem checkRunner_failure_isolation {δ : Type} (now : Nat)
    (layer table : String) (d : δ) (checks : List (CheckDef δ)) (i : Nat)
    (hi : i < checks.length) (msg : String)
    (h : checks[i].run d = .error msg) :
    (runChecks now layer table d checks).length = checks.length ∧
    ∀ hi2 : i < (runChecks now layer table d checks).length,
      ((runChecks now layer table d checks)[i].status = .error ∧
       (∃ pre post,
         (runChecks now layer table d checks)[i].message =
           pre ++ msg ++ post) ∧
       ∀ (j : Nat) (hj : j < checks.length)
         (hj2 : j < (runChecks now layer table d checks).length),
         (runChecks now layer table d checks)[j] =
           runCheck now layer table d checks[j]) := by
  refine ⟨by simp [runChecks], ?_⟩
  intro hi2
  refine ⟨?_, ⟨"", "", ?_⟩, ?_⟩
  · simp [runChecks, runCheck, h]
  · simp [runChecks, runCheck, h]
  · intro j hj hj2
    simp [runChecks]

/-- Witness for C1 on a concrete batch where check 0 raises and check 1
still appears in the output. -/
theorem checkRunner_failure_isolation_witness :
    (runChecks 3 "silver" "trades" ()
        [⟨"boomer", fun _ => .error "boom", .hardGeq⟩,
         ⟨"fine", fun _ => .ok (9, some 5, "ok"), .hardGeq⟩]).length = 2 ∧
    ((runChecks 3 "silver" "trades" ()
        [⟨"boomer", fun _ => .error "boom", .hardGeq⟩,
         ⟨"fine", fun _ => .ok (9, some 5, "ok"), .hardGeq⟩]).get
        ⟨0, by simp [runChecks]⟩).status = CheckStatus.error ∧
    (runChecks 3 "silver" "trades" ()
        [⟨"boomer", fun _ => .error "boom", .hardGeq⟩,
         ⟨"fine", fun _ => .ok (9, some 5, "ok"), .hardGeq⟩]).get
        ⟨1, by simp [runChecks]⟩ =
      runCheck 3 "silver" "trades" ()
        ⟨"fine", fun _ => .ok (9, some 5, "ok"), Policy.hardGeq⟩ := by
  have h := checkRunner_failure_isolation 3 "silver" "trades" ()
    [⟨"boomer", fun _ => .error "boom", .hardGeq⟩,
     ⟨"fine", fun _ => .ok (9, some 5, "ok"), .hardGeq⟩] 0 (by simp)
    "boom" rfl
  have h2 := h.2 (by simp [runChecks])
  exact ⟨h.1, h2.1, h2.2.2 1 (by simp) (by simp [runChecks])⟩

/-- Claim C2: the aggregate verdict is `failed` iff some individual result
has status `failed` or `error`; `warning` iff no result is `failed` or
`error` but at least one is `warning`; `passed` iff no result is `failed`,
`error` or `warning`.  In particular a batch of one passed, one failed and
one warning result yields `failed`, not `warning`. -/
theorem checkRunner_aggregate_verdict (rs : List CheckResult) :
    (aggregate rs = .failed ↔
      ∃ r ∈ rs, r.status = .failed ∨ r.status = .error) ∧
    (aggregate rs = .warning ↔
      ((∀ r ∈ rs, r.status ≠ .failed ∧ r.status ≠ .error) ∧
       ∃ r ∈ rs, r.status = .warning)) ∧
    (aggregate rs = .passed ↔
      ∀ r ∈ rs, r.status ≠ .failed ∧ r.status ≠ .error ∧
        r.status ≠ .warning) ∧
    (∀ r1 r2 r3 : CheckResult, r1.status = .passed → r2.status = .failed →
      r3.status = .warning → aggregate [r1, r2, r3] = .failed) := by
  have hb : rs.any (fun r => r.status.isBlocking) = true ↔
      ∃ r ∈ rs, r.status = .failed ∨ r.status = .error := by
    simp only [List.any_eq_true, isBlocking_iff]
  have hw : rs.any (fun r => r.status.isWarning) = true ↔
      ∃ r ∈ rs, r.status = .warning := by
    simp only [List.any_eq_true, isWarning_iff]
  refine ⟨?_, ?_, ?_, ?_⟩
  · unfold aggregate
    split
    · rename_i htrue
      exact iff_of_true rfl (hb.mp htrue)
    · rename_i hfalse
      rw [Bool.not_eq_true] at hfalse
      split <;>
        simp [← hb, hfalse]
  · unfold aggregate
    split
    · rename_i htrue
      simp only [reduceCtorEq, false_iff, not_and]
      intro hall
      rw [hb] at htrue
      obtain ⟨r, hr, hst⟩ := htrue
      have := hall r hr
      tauto
    · rename_i hfalse
      rw [Bool.not_eq_true] at hfalse
      have hnone : ∀ r ∈ rs, r.status ≠ .failed ∧ r.status ≠ .error := by
        intro r hr
        by_contra hc
        have : rs.any (fun r => r.status.isBlocking) = true :=
          hb.mpr ⟨r, hr, by tauto⟩
        rw [this] at hfalse
        cases hfalse
      split
      · rename_i hwt
        exact iff_of_true rfl ⟨hnone, hw.mp hwt⟩
      · rename_i hwf
        rw [Bool.not_eq_true] at hwf
        simp only [reduceCtorEq, false_iff, not_and]
        intro _
        rw [← hw, hwf]
        simp
  · unfold aggregate
    split
    · rename_i htrue
      rw [hb] at htrue
      obtain ⟨r, hr, hst⟩ := htrue
      simp only [reduceCtorEq, false_iff, not_forall]
      exact ⟨r, hr, by tauto⟩
    · rename_i hfalse
      rw [Bool.not_eq_true] at hfalse
      split
      · rename_i hwt
        obtain ⟨r, hr, hst⟩ := hw.mp hwt
        simp only [reduceCtorEq, false_iff, not_forall]
        exact ⟨r, hr, by tauto⟩
      · rename_i hwf
        rw [Bool.not_eq_true] at hwf
        simp only [true_iff]
        intro r hr
        refine ⟨?_, ?_, ?_⟩
        · intro hc
          have : rs.any (fun r => r.status.isBlocking) = true :=
            hb.mpr ⟨r, hr, Or.inl hc⟩
          rw [this] at hfalse; cases hfalse
        · intro hc
          have : rs.any (fun r => r.status.isBlocking) = true :=
            hb.mpr ⟨r, hr, Or.inr hc⟩
          rw [this] at hfalse; cases hfalse
        · intro hc
          have : rs.any (fun r => r.status.isWarning) = true :=
            hw.mpr ⟨r, hr, hc⟩
          rw [this] at hwf; cases hwf
  · intro r1 r2 r3 h1 h2 h3
    simp [aggregate, CheckStatus.isBlocking, h2]

/-- Witness for C2: a concrete batch with one passed, one failed and one
warning result (the spec's scenario 3, as produced by the policy table:
100 against hard threshold 50 passes, 10 against hard threshold 50 fails,
40 against soft threshold 50 warns) aggregates to `failed`. -/
theorem checkRunner_aggregate_verdict_witness :
    aggregate
      [{ check_name := "c1", layer := "gold", table_name := "t",
         status := deriveStatus .hardGeq 100 (some 50), metric_value := 100,
         threshold := some 50, message := "", checked_at := 0 },
       { check_name := "c2", layer := "gold", table_name := "t",
         status := deriveStatus .hardGeq 10 (some 50), metric_value := 10,
         threshold := some 50, message := "", checked_at := 0 },
       { check_name := "c3", layer := "gold", table_name := "t",
         status := deriveStatus .softGeq 40 (some 50), metric_value := 40,
         threshold := some 50, message := "", checked_at := 0 }] =
      CheckStatus.failed :=
  (checkRunner_aggregate_verdict []).2.2.2 _ _ _
    (by norm_num [deriveStatus]) (by norm_num [deriveStatus])
    (by norm_num [deriveStatus])

/-- Embeds the `SERVICES` table of `scripts/health_check.py`: expected
docker-compose service names with their display labels. -/
def SERVICES : List (String × String) :=
  [("minio", "MinIO (Storage)"),
   ("kafka", "Kafka (Streaming)"),
   ("spark-master", "Spark Master"),
   ("spark-worker", "Spark Worker"),
   ("spark-thrift", "Spark Thrift Server"),
   ("airflow-webserver", "Airflow Webserver"),
   ("airflow-scheduler", "Airflow Scheduler"),
   ("iceberg-rest", "Iceberg REST Catalog"),
   ("api", "FastAPI"),
   ("dashboard", "Streamlit Dashboard")]

/-- Result of the `docker compose ps` subprocess queried by the script:
return code, stdout split into lines, stderr. -/
structure ProcResult where
  returncode : Int
  stdout : List String
  stderr : String

/-- Observable behaviour of one run of the script: the printed lines and
the process exit status (0 for a normal return). -/
structure HealthOutput where
  lines : List String
  exitCode : Nat
deriving DecidableEq, Repr

/-- The bar of 50 equality signs printed by the script. -/
def eqBar : String := String.mk (List.replicate 50 '=')

/-- Left-justified padding to a field of width `w`, as in the script's
formatted service lines. -/
def padRight (s : String) (w : Nat) : String :=
  s ++ String.mk (List.replicate (w - s.length) ' ')

/-- The per-service line printed when the service is running. -/
def okLine (label : String) : String :=
  "  OK   " ++ padRight label 30 ++ " running"

/-- The per-service line printed when the service is not running. -/
def failLine (label : String) : String :=
  "  FAIL " ++ padRight label 30 ++ " NOT RUNNING"

/-- The summary count line printed by the script. -/
def summaryLine (healthy total : Nat) : String :=
  "  " ++ toString healthy ++ "/" ++ toString total ++ " services running"

/-- Executable model of the Python `str.strip()` used by the script:
drop leading and trailing whitespace characters. -/
def pyStrip (s : String) : String :=
  String.mk
    (((s.data.dropWhile Char.isWhitespace).reverse.dropWhile
        Char.isWhitespace).reverse)

/-- Embeds the `running` set of `check_services`: the stripped non-empty
stdout lines of the subprocess. -/
def runningServices (ps : ProcResult) : List String :=
  (ps.stdout.map pyStrip).filter (fun l => l != "")

/-- Embeds `check_services` of `scripts/health_check.py`: query status
(`ps` is the subprocess result), print one OK/FAIL line per expected
service, a summary count, and exit non-zero when the query failed or some
expected service is not running. -/
def check_services (ps : ProcResult) : HealthOutput :=
  let header := ["CryptoLake Health Check", eqBar]
  if ps.returncode != 0 then
    { lines := header ++
        ["ERROR: cannot query docker compose status", pyStrip ps.stderr],
      exitCode := 1 }
  else
    let running := runningServices ps
    let svcLines := SERVICES.map (fun p =>
      if p.1 ∈ running then okLine p.2 else failLine p.2)
    let healthy :=
      (SERVICES.filter (fun p => decide (p.1 ∈ running))).length
    let total := SERVICES.length
    let body := header ++ svcLines ++ [eqBar, summaryLine healthy total]
    if healthy < total then
      { lines := body ++ ["", "Tip: run \x27make up\x27 to start all services"],
        exitCode := 1 }
    else
      { lines := body, exitCode := 0 }

lemma length_filter_lt_iff {α : Type} (f : α → Bool) (l : List α) :
    (l.filter f).length < l.length ↔ ∃ x ∈ l, f x = false := by
  induction l with
  | nil => simp
  | cons a t ih =>
    cases hfa : f a
    · simp only [List.filter_cons, hfa, Bool.false_eq_true, if_false,
        List.length_cons]
      constructor
      · intro _
        exact ⟨a, List.mem_cons_self a t, hfa⟩
      · intro _
        exact Nat.lt_succ_of_le (List.length_filter_le f t)
    · simp only [List.filter_cons, hfa, if_true, List.length_cons,
        Nat.succ_lt_succ_iff, ih, List.mem_cons]
      constructor
      · rintro ⟨x, hx, hfx⟩
        exact ⟨x, Or.inr hx, hfx⟩
      · rintro ⟨x, hx | hx, hfx⟩
        · rw [hx] at hfx
          rw [hfa] at hfx
          cases hfx
        · exact ⟨x, hx, hfx⟩

/-- Claim C9: when the status query itself fails the script exits
non-zero; otherwise it prints an OK line for every expected service that
is running and a FAIL line for every expected service that is not, prints
the summary `healthy/total` where `healthy` counts the expected services
present among the running ones, and exits non-zero iff at least one
expected service is not running. -/
theorem health_check_behaviour (ps : ProcResult) :
    (ps.returncode ≠ 0 → (check_services ps).exitCode = 1) ∧
    (ps.returncode = 0 →
      (∀ p ∈ SERVICES,
        (p.1 ∈ runningServices ps →
          okLine p.2 ∈ (check_services ps).lines) ∧
        (p.1 ∉ runningServices ps →
          failLine p.2 ∈ (check_services ps).lines)) ∧
      summaryLine
          ((SERVICES.filter
            (fun p => decide (p.1 ∈ runningServices ps))).length)
          SERVICES.length ∈ (check_services ps).lines ∧
      ((check_services ps).exitCode ≠ 0 ↔
        ∃ p ∈ SERVICES, p.1 ∉ runningServices ps)) := by
  constructor
  · intro h
    simp [check_services, bne_iff_ne, h]
  · intro h
    have hcond : (ps.returncode != 0) = false := by
      simp [bne_iff_ne, h]
    have hsub : ∃ extra, (check_services ps).lines =
        ["CryptoLake Health Check", eqBar] ++
        SERVICES.map (fun q =>
          if q.1 ∈ runningServices ps then okLine q.2 else failLine q.2) ++
        [eqBar, summaryLine
          ((SERVICES.filter
            (fun p => decide (p.1 ∈ runningServices ps))).length)
          SERVICES.length] ++ extra := by
      simp only [check_services, hcond, Bool.false_eq_true, if_false]
      split
      · exact ⟨["", "Tip: run \x27make up\x27 to start all services"],
          by simp [List.append_assoc]⟩
      · exact ⟨[], by simp [List.append_assoc]⟩
    obtain ⟨extra, hlines⟩ := hsub
    have hexit : (check_services ps).exitCode =
        if (SERVICES.filter
            (fun p => decide (p.1 ∈ runningServices ps))).length <
            SERVICES.length then 1 else 0 := by
      simp only [check_services, hcond, Bool.false_eq_true, if_false]
      split
      · rfl
      · rfl
    refine ⟨?_, ?_, ?_⟩
    · intro p hp
      constructor
      · intro hc
        have hin : okLine p.2 ∈ SERVICES.map (fun q =>
            if q.1 ∈ runningServices ps then okLine q.2
            else failLine q.2) :=
          List.mem_map.mpr ⟨p, hp, by rw [if_pos hc]⟩
        rw [hlines]
        simp only [List.append_assoc, List.mem_append]
        exact Or.inr (Or.inl hin)
      · intro hc
        have hin : failLine p.2 ∈ SERVICES.map (fun q =>
            if q.1 ∈ runningServices ps then okLine q.2
            else failLine q.2) :=
          List.mem_map.mpr ⟨p, hp, by rw [if_neg hc]⟩
        rw [hlines]
        simp only [List.append_assoc, List.mem_append]
        exact Or.inr (Or.inl hin)
    · rw [hlines]
      simp only [List.append_assoc, List.mem_append]
      exact Or.inr (Or.inr (Or.inl (by simp)))
    · rw [hexit]
      constructor
      · intro hne
        by_cases hlt : (SERVICES.filter
            (fun p => decide (p.1 ∈ runningServices ps))).length <
            SERVICES.length
        · obtain ⟨x, hx, hfx⟩ := (length_filter_lt_iff _ _).mp hlt
          exact ⟨x, hx, of_decide_eq_false hfx⟩
        · rw [if_neg hlt] at hne
          exact absurd rfl hne
      · rintro ⟨x, hx, hfx⟩
        have hlt := (length_filter_lt_iff
            (fun p : String × String =>
              decide (p.1 ∈ runningServices ps)) SERVICES).mpr
          ⟨x, hx, decide_eq_false hfx⟩
        rw [if_pos hlt]
        exact one_ne_zero

/-- Witness for C9: with only `minio` running, the script reports MinIO as
OK, FastAPI as FAIL, and exits non-zero; a failed status query also exits
non-zero. -/
theorem health_check_behaviour_witness :
    (check_services ⟨1, [], "boom"⟩).exitCode = 1 ∧
    okLine "MinIO (Storage)" ∈
      (check_services ⟨0, ["minio"], ""⟩).lines ∧
    failLine "FastAPI" ∈ (check_services ⟨0, ["minio"], ""⟩).lines ∧
    (check_services ⟨0, ["minio"], ""⟩).exitCode ≠ 0 := by
  have h1 := (health_check_behaviour ⟨1, [], "boom"⟩).1 (by decide)
  have h2 := (health_check_behaviour ⟨0, ["minio"], ""⟩).2 rfl
  refine ⟨h1, ?_, ?_, ?_⟩
  · exact (h2.1 ("minio", "MinIO (Storage)") (by decide)).1 (by decide)
  · exact (h2.1 ("api", "FastAPI") (by decide)).2 (by decide)
  · exact h2.2.2.mpr ⟨("api", "FastAPI"), by decide, by decide⟩

/-- Embeds the module-level state of `src/serving/api/database.py`: the
shared `_CONN` handle (connections are identified by numeric handles)
together with an instrumentation counter of `hive.connect` invocations. -/
structure ConnState where
  conn : Option Nat
  connectCalls : Nat
deriving DecidableEq, Repr

/-- The state at process start: `_CONN = None`, no `hive.connect` call. -/
def initConnState : ConnState := { conn := none, connectCalls := 0 }

/-- Models `hive.connect`: returns a fresh connection handle and records
the invocation. -/
def hiveConnect (st : ConnState) : Nat × ConnState :=
  (st.connectCalls, { st with connectCalls := st.connectCalls + 1 })

/-- Embeds `get_connection` of `src/serving/api/database.py`: if `_CONN`
is unset, call `hive.connect`, store the connection in `_CONN` and return
it; otherwise return the stored connection unchanged. -/
def get_connection (st : ConnState) : Nat × ConnState :=
  match st.conn with
  | some c => (c, st)
  | none =>
    let p := hiveConnect st
    (p.1, { p.2 with conn := some p.1 })

/-- The module state after `n` successive `get_connection` calls starting
from process start. -/
def iterateGetConnection : Nat → ConnState → ConnState
  | 0, st => st
  | n + 1, st => iterateGetConnection n (get_connection st).2

lemma get_connection_of_some (st : ConnState) (c : Nat)
    (h : st.conn = some c) : get_connection st = (c, st) := by
  unfold get_connection
  rw [h]

lemma iterateGetConnection_fixed (m : Nat) (st : ConnState) (c : Nat)
    (h : st.conn = some c) : iterateGetConnection m st = st := by
  induction m with
  | zero => rfl
  | succ k ih =>
    show iterateGetConnection k (get_connection st).2 = st
    rw [get_connection_of_some st c h]
    exact ih

lemma iterateGetConnection_succ_init (m : Nat) :
    iterateGetConnection (m + 1) initConnState =
      ({ conn := some 0, connectCalls := 1 } : ConnState) := by
  show iterateGetConnection m (get_connection initConnState).2 = _
  exact iterateGetConnection_fixed m _ 0 rfl

/-- Claim C10: lazy shared connection invariant — after any number of
`get_connection` calls, `_CONN` is unset (zero calls) or holds exactly
the connection created by the first call; `hive.connect` has been invoked
at most once (`min n 1` times); every call returns the first call's
connection; and calls after the first leave the module state, hence
`_CONN`, unchanged. -/
theorem database_lazy_connection (n : Nat) :
    (iterateGetConnection n initConnState).conn =
      (if n = 0 then none else some (get_connection initConnState).1) ∧
    (iterateGetConnection n initConnState).connectCalls = min n 1 ∧
    (get_connection (iterateGetConnection n initConnState)).1 =
      (get_connection initConnState).1 ∧
    iterateGetConnection (n + 1) initConnState =
      iterateGetConnection 1 initConnState := by
  cases n with
  | zero => exact ⟨rfl, rfl, rfl, rfl⟩
  | succ m =>
    rw [iterateGetConnection_succ_init m, iterateGetConnection_succ_init 0]
    refine ⟨rfl, by simp, rfl, iterateGetConnection_succ_init (m + 1)⟩

end CryptoLake
